import Mathlib

/-
Verification of the `AffineWarping` class of `affinewarp/affinewarp.py`
(piecewise affine time warping, alternating minimization).

The shallow embedding below follows the Python source line by line.
Machine floats are modelled by rationals.  The low-level numerical kernels
(`quad_loss`, `warp_with_quadloss`, `predictwarp`, `densewarp`,
`sparsewarp`, `warp_penalties`, `_fast_template_grams`, the banded solver)
live in `affinewarp/utils.py` and `affinewarp/interp.py`, which are
external collaborators of this module; they are treated as opaque
parameters (fields of `Kernels`), exactly as the specification declares
them out of scope.  The single exception is `_force_monotonic_knots`,
whose post-condition matters for the knot invariant; it is modelled from
the specification (see `repairRow`).
-/

namespace AffineWarp

/-- Numpy `np.linspace a b n`: `n` evenly spaced rationals from `a` to `b`
(step `(b-a)/(n-1)`; for `n = 1` the single value is `a`, matching numpy). -/
def linspace (a b : ℚ) (n : ℕ) : List ℚ :=
  (List.range n).map (fun (i : ℕ) => a + (b - a) * (i : ℚ) / ((n : ℚ) - 1))

/-- Mean of the first `K` values of `f`, as in `numpy.mean` over an array of
length `K`. -/
def meanK (K : ℕ) (f : ℕ → ℚ) : ℚ :=
  (∑ k in Finset.range K, f k) / (K : ℚ)

/-- The temperature schedule built by `fit_warps` (line 138 of the source):
`np.logspace(min_temp, max_temp, iterations)`.  Since
`np.logspace a b n = 10 ** np.linspace a b n` and `x ↦ 10^x` is strictly
increasing, we represent each temperature by its exponent (its base-10
logarithm); comparisons between temperatures coincide with comparisons
between exponents. -/
def temperatureExps (min_temp max_temp : ℚ) (iterations : ℕ) : List ℚ :=
  linspace min_temp max_temp iterations

/-- The order in which `fit_warps` visits the temperatures (line 141 of the
source): `for temp in reversed(temperatures)`.  Entries are base-10
exponents of the actual temperatures, see `temperatureExps`. -/
def visitedTemperatures (min_temp max_temp : ℚ) (iterations : ℕ) : List ℚ :=
  (temperatureExps min_temp max_temp iterations).reverse

/-- Perturbation of one row of `y_knots` (line 36 of the source):
`y += np.random.randn(K, P) * temperature`, every entry perturbed.  The
Gaussian draw already multiplied by the temperature is the function `g`. -/
def perturbY (g : ℕ → ℚ) (row : List ℚ) : List ℚ :=
  row.mapIdx (fun i v => v + g i)

/-- Perturbation of one row of `x_knots` (lines 37-38 of the source): only
the interior entries `x[:, 1:-1]` are perturbed, and only when
`n_knots > 0`.  The Gaussian draw already multiplied by the temperature is
the function `g`. -/
def perturbX (n_knots : ℕ) (g : ℕ → ℚ) (row : List ℚ) : List ℚ :=
  if 0 < n_knots then
    row.mapIdx (fun i v => if 1 ≤ i ∧ i + 1 < row.length then v + g i else v)
  else row

/-- Helper for `repairRow`: runs along the tail of a knot row keeping a
running maximum `acc`, clamping each value into `[acc, 1]`, and pins the
final entry to `1`. -/
def repairAux (acc : ℚ) : List ℚ → List ℚ
  | [] => []
  | [_] => [1]
  | v :: rest => (max acc (min v 1)) :: repairAux (max acc (min v 1)) rest

/-- Modelled from the spec: `_force_monotonic_knots` is defined in
`affinewarp/utils.py`, which is not part of this module's sources.  Per
the specification (section 4.1) it is a projection that legalizes a
perturbed knot row: the repaired row "must have non-decreasing values
along each trial row for both arrays, with endpoints pinned to their
original fixed values (0 and 1)", by forced re-sorting / clamping
(cumulative max).  This model pins the first entry to 0, the last entry
to 1, and takes a clamped running maximum in between. -/
def repairRow (row : List ℚ) : List ℚ :=
  match row with
  | [] => []
  | _ :: rest => 0 :: repairAux 0 rest

/-- `AffineWarping._mutate_knots` (lines 33-39 of the source): operates on
copies of the knot arrays, adds Gaussian noise (`gy` to every `y` entry,
`gx` to interior `x` entries when `n_knots > 0`), and returns the
monotonicity-repaired candidate `(X, Y)`.  The Gaussian draws are
exogenous parameters (already scaled by the temperature). -/
def mutate_knots (n_knots : ℕ) (gx gy : ℕ → ℕ → ℚ) (x y : ℕ → List ℚ) :
    (ℕ → List ℚ) × (ℕ → List ℚ) :=
  (fun k => repairRow (perturbX n_knots (gx k) (x k)),
   fun k => repairRow (perturbY (gy k) (y k)))

/-- The knot-row invariant of the data model: non-decreasing entries with
first element `0` and last element `1`. -/
def validRow (r : List ℚ) : Prop :=
  r.head? = some 0 ∧ r.getLast? = some 1 ∧ r.Chain' (· ≤ ·)

/-- The mutable state of one `AffineWarping` fitting session: trial count
`K`, time/channel counts `T`/`N`, reference time base `tref`, template
(as a function of timepoint and channel), per-trial knot rows, per-trial
loss and penalty arrays, the two scratch buffers `_new_losses` and
`_new_penalties` (allocated with `np.empty_like`, hence of arbitrary
initial content), and the loss history. -/
structure WState where
  K : ℕ
  T : ℕ
  N : ℕ
  tref : List ℚ
  template : ℕ → ℕ → ℚ
  xknots : ℕ → List ℚ
  yknots : ℕ → List ℚ
  losses : ℕ → ℚ
  penalties : ℕ → ℚ
  newLosses : ℕ → ℚ
  newPenalties : ℕ → ℚ
  loss_hist : List ℚ

/-- One candidate offered to the acceptance step of `fit_warps`: candidate
knot rows `X`, `Y`, the per-trial output of the `warp_penalties` kernel,
and the per-trial reconstruction loss added by the `warp_with_quadloss`
kernel. -/
structure StepInput where
  X : ℕ → List ℚ
  Y : ℕ → List ℚ
  pen : ℕ → ℚ
  recon : ℕ → ℚ

/-- The Gaussian draws of one `fit_warps` temperature step, already scaled
by the step's temperature. -/
structure WarpDraw where
  gx : ℕ → ℕ → ℚ
  gy : ℕ → ℕ → ℚ

/-- The out-of-scope numerical kernels of `affinewarp/interp.py` and
`affinewarp/utils.py`, plus the banded least-squares solve of
`fit_template`, treated as opaque functions (the trial data tensor is
captured inside them).  `penalty` is `warp_penalties` per trial; `recon`
is the reconstruction loss added by `warp_with_quadloss` given knots and
template; `tmpl` is the whole `fit_template` body producing the new
template from the knots; `quad0` is `quad_loss(predict(), data)` used at
initialization; `predictK`, `sparsewarpK` and `densewarpK` are the
kernels behind `predict`, `argsort_warps` and `transform`. -/
structure Kernels where
  penalty : List ℚ → List ℚ → ℚ
  recon : (ℕ → List ℚ) → (ℕ → List ℚ) → (ℕ → ℕ → ℚ) → ℕ → ℚ
  tmpl : (ℕ → List ℚ) → (ℕ → List ℚ) → ℕ → ℕ → ℚ
  quad0 : (ℕ → List ℚ) → (ℕ → List ℚ) → (ℕ → ℕ → ℚ) → ℕ → ℚ
  predictK : (ℕ → List ℚ) → (ℕ → List ℚ) → (ℕ → ℕ → ℚ) → ℕ → ℕ → ℕ → ℚ
  sparsewarpK : (ℕ → List ℚ) → (ℕ → List ℚ) → ℕ → ℚ → ℚ
  densewarpK : (ℕ → List ℚ) → (ℕ → List ℚ) → (ℕ → ℕ → ℕ → ℚ) → ℕ → ℕ → ℕ → ℚ

/-- Lines 146-163 of the source, one temperature step of `fit_warps` after
the candidate has been produced.  When `warpreg > 0` the candidate
penalties are computed and scaled (`self._new_penalties *= self.warpreg`)
and copied into `_new_losses`; otherwise `_new_losses` is zero-filled and
`_new_penalties` is left untouched.  The reconstruction kernel then adds
the candidate loss.  Finally every trial with
`_new_losses[k] < _losses[k]` has its losses, penalties and knot rows
replaced by the candidate's. -/
def warpStep (warpreg : ℚ) (inp : StepInput) (st : WState) : WState :=
  let newPen : ℕ → ℚ := fun k =>
    if 0 < warpreg then warpreg * inp.pen k else st.newPenalties k
  let newLoss : ℕ → ℚ := fun k =>
    (if 0 < warpreg then newPen k else 0) + inp.recon k
  { st with
    xknots := fun k => if newLoss k < st.losses k then inp.X k else st.xknots k
    yknots := fun k => if newLoss k < st.losses k then inp.Y k else st.yknots k
    losses := fun k => if newLoss k < st.losses k then newLoss k else st.losses k
    penalties := fun k => if newLoss k < st.losses k then newPen k else st.penalties k
    newLosses := newLoss
    newPenalties := newPen }

/-- The candidate of one `fit_warps` temperature step: the mutated knots
of lines 144, the `warp_penalties` kernel evaluated on them (line 148),
and the `warp_with_quadloss` reconstruction loss against the current
template (lines 155-156). -/
def stepInputOf (km : Kernels) (n_knots : ℕ) (d : WarpDraw) (st : WState) :
    StepInput :=
  { X := (mutate_knots n_knots d.gx d.gy st.xknots st.yknots).1
    Y := (mutate_knots n_knots d.gx d.gy st.xknots st.yknots).2
    pen := fun k =>
      km.penalty ((mutate_knots n_knots d.gx d.gy st.xknots st.yknots).1 k)
        ((mutate_knots n_knots d.gx d.gy st.xknots st.yknots).2 k)
    recon := km.recon (mutate_knots n_knots d.gx d.gy st.xknots st.yknots).1
      (mutate_knots n_knots d.gx d.gy st.xknots st.yknots).2 st.template }

/-- One full temperature step of `fit_warps` (lines 141-163): mutate the
current knots into a candidate, evaluate the kernels on the candidate,
and run the acceptance update. -/
def fitWarpsStep (km : Kernels) (n_knots : ℕ) (warpreg : ℚ) (d : WarpDraw)
    (st : WState) : WState :=
  warpStep warpreg (stepInputOf km n_knots d st) st

/-- The total objective of a candidate at trial `k`, as the claims state
it: reconstruction loss plus the `warpreg`-weighted penalty when
`warpreg > 0`.  By construction of `warpStep` this is exactly the value
the code stores in `_new_losses[k]`. -/
def candidateTotal (warpreg : ℚ) (inp : StepInput) (k : ℕ) : ℚ :=
  inp.recon k + (if 0 < warpreg then warpreg * inp.pen k else 0)

/-- `AffineWarping.fit_warps` (lines 133-163): one step per visited
temperature of the schedule.  The temperature value only scales the
Gaussian draw, which is exogenous here, so each step consumes `draws i`. -/
def fit_warps (km : Kernels) (n_knots : ℕ) (warpreg min_temp max_temp : ℚ)
    (iterations : ℕ) (draws : ℕ → WarpDraw) (st : WState) : WState :=
  (List.range (visitedTemperatures min_temp max_temp iterations).length).foldl
    (fun s i => fitWarpsStep km n_knots warpreg (draws i) s) st

/-- One iteration of the `continue_fit` loop (lines 102-124): run
`fit_warps`, then (when `fitTemplate` is set) refit the template, refresh
the per-trial losses with a full reconstruction pass (`_losses.fill(0.0)`
followed by `warp_with_quadloss`), add the stored warping penalties when
`warpreg > 0`, and finally append the mean loss to the loss history. -/
def continueFitStep (km : Kernels) (n_knots : ℕ)
    (warpreg min_temp max_temp : ℚ) (warp_iterations : ℕ)
    (fitTemplate : Bool) (draws : ℕ → WarpDraw) (st : WState) : WState :=
  let st1 := fit_warps km n_knots warpreg min_temp max_temp warp_iterations draws st
  let st2 :=
    if fitTemplate then
      let tpl := km.tmpl st1.xknots st1.yknots
      let base : ℕ → ℚ := fun k => 0 + km.recon st1.xknots st1.yknots tpl k
      let ls : ℕ → ℚ := fun k =>
        if 0 < warpreg then base k + st1.penalties k else base k
      { st1 with template := tpl, losses := ls }
    else st1
  { st2 with loss_hist := st2.loss_hist ++ [meanK st2.K st2.losses] }

/-- The full `continue_fit` loop body (lines 99-131): `iterations` rounds
of `continueFitStep`; `idraws it` are the Gaussian draws of round `it`. -/
def continue_fit_run (km : Kernels) (n_knots : ℕ)
    (warpreg min_temp max_temp : ℚ) (iterations warp_iterations : ℕ)
    (fitTemplate : Bool) (idraws : ℕ → ℕ → WarpDraw) (st : WState) : WState :=
  (List.range iterations).foldl
    (fun s it =>
      continueFitStep km n_knots warpreg min_temp max_temp warp_iterations
        fitTemplate (idraws it) s) st

/-- A raw numpy input array: its shape, whether its dtype is numeric, and
its entries (meaningful when the shape is 3-dimensional: trial, time,
channel). -/
structure NDArray where
  shape : List ℕ
  numeric : Bool
  val : ℕ → ℕ → ℕ → ℚ

/-- `data.ndim`. -/
def NDArray.ndim (d : NDArray) : ℕ := d.shape.length

/-- `data.shape[0]`, the trial count. -/
def NDArray.K (d : NDArray) : ℕ := d.shape.getD 0 0

/-- `data.shape[1]`, the timepoint count. -/
def NDArray.T (d : NDArray) : ℕ := d.shape.getD 1 0

/-- `data.shape[2]`, the channel count. -/
def NDArray.N (d : NDArray) : ℕ := d.shape.getD 2 0

/-- `data.mean(axis=0)` (line 60 of the source): the across-trial mean,
a `(T, N)` array. -/
def meanOverTrials (d : NDArray) : ℕ → ℕ → ℚ :=
  fun t n => (∑ k in Finset.range d.K, d.val k t n) / (d.K : ℚ)

/-- The error message of `fit` for non-3-dimensional or non-numeric input
(lines 50-52 of the source). -/
def badDataMsg : String :=
  "\x27data\x27 must be provided as a numpy ndarray (neurons x timepoints x trials) holding binned spike data."

/-- Lines 41-79 of `AffineWarping.fit`: validate the input (must be a
3-dimensional numeric array), then initialize template (trial mean),
reference time base (`np.linspace(0, 1, T)`), identity knots
(`np.linspace(0, 1, n_knots+2)` tiled over trials, `y_knots` a copy of
`x_knots`), initial losses (`quad_loss(self.predict(), data)`), zero
penalties, the loss history `[mean(losses)]`, and the two uninitialized
scratch buffers (`np.empty_like`), whose arbitrary contents are the
parameters `junkNL` and `junkNP`. -/
def fitInit (km : Kernels) (n_knots : ℕ) (junkNL junkNP : ℕ → ℚ)
    (data : NDArray) : Except String WState :=
  if data.ndim = 3 ∧ data.numeric = true then
    let x0 : ℕ → List ℚ := fun _ => linspace 0 1 (n_knots + 2)
    let tpl := meanOverTrials data
    let l0 : ℕ → ℚ := km.quad0 x0 x0 tpl
    Except.ok
      { K := data.K, T := data.T, N := data.N
        tref := linspace 0 1 data.T
        template := tpl
        xknots := x0, yknots := x0
        losses := l0
        penalties := fun _ => 0
        newLosses := junkNL, newPenalties := junkNP
        loss_hist := [meanK data.K l0] }
  else Except.error badDataMsg

/-
Template fitter band assembly (`fit_template`, lines 174-184 of the
source).  With `l2_smoothness > 0` the Gram matrix for
`scipy.linalg.solveh_banded` is seeded with the second-derivative
smoothness band in upper banded storage: row 0 holds the entries two
above the diagonal (`WtW[0, j]` is matrix entry `(j-2, j)`), row 1 the
entries one above (`(j-1, j)`), row 2 the diagonal (`(j, j)`).
-/

/-- `WtW[0, :]` (line 178): `1 * l2_smoothness` from column 2 on. -/
def WtW0 (s : ℚ) (j : ℕ) : ℚ :=
  if 2 ≤ j then s else 0

/-- `WtW[1, :]` (lines 179-180): `-4 * l2_smoothness` from column 2 on,
`-2 * l2_smoothness` at column 1. -/
def WtW1 (s : ℚ) (j : ℕ) : ℚ :=
  if 2 ≤ j then -4 * s else if j = 1 then -2 * s else 0

/-- `WtW[2, :]` (lines 181-183): `6 * l2_smoothness` from column 2 on,
`5 * l2_smoothness` at column 1, `1 * l2_smoothness` at column 0. -/
def WtW2 (s : ℚ) (j : ℕ) : ℚ :=
  if 2 ≤ j then 6 * s else if j = 1 then 5 * s else s

/-- The discrete second-difference matrix `D` of the claim: the
`(T-2) × T` matrix with rows `(…, 1, -2, 1, …)`; entry of row `i`,
column `j`. -/
def D2mat (i j : ℕ) : ℚ :=
  if j = i then 1 else if j = i + 1 then -2 else if j = i + 2 then 1 else 0

/-- Entry `(i, j)` of `Dᵀ D` for the `(T-2) × T` second-difference matrix
`D`. -/
def DtD (T i j : ℕ) : ℚ :=
  ∑ r in Finset.range (T - 2), D2mat r i * D2mat r j

/-- The snapshot mapping returned by `dump_params` (lines 281-289). -/
structure DumpedParams where
  template : ℕ → ℕ → ℚ
  x_knots : ℕ → List ℚ
  y_knots : ℕ → List ℚ
  loss_hist : List ℚ
  l2_smoothness : ℚ
  q1 : ℚ
  q2 : ℚ

/-- An `AffineWarping` instance.  `state` bundles the fitting-session
attributes that `fit` assigns together (`template`, `x_knots`, `y_knots`,
`tref`, the loss arrays and `loss_hist`); after `__init__` it is `none`,
matching `self.template = None`, `self.x_knots = None`,
`self.y_knots = None` (lines 29-31) and the other attributes not existing
at all.  `q1` and `q2` are attributes never assigned anywhere in this
class (only read by `dump_params`); `none` models their absence on a
directly constructed instance. -/
structure Model where
  n_knots : ℕ
  warpreg : ℚ
  l2_smoothness : ℚ
  min_temp : ℚ
  max_temp : ℚ
  state : Option WState
  q1 : Option ℚ
  q2 : Option ℚ

/-- `self.template` as seen from outside: `None` iff the model is
unfitted. -/
def Model.template (m : Model) : Option (ℕ → ℕ → ℚ) :=
  m.state.map WState.template

/-- `self.x_knots` as seen from outside: `None` iff the model is
unfitted. -/
def Model.x_knots (m : Model) : Option (ℕ → List ℚ) :=
  m.state.map WState.xknots

/-- `self.y_knots` as seen from outside: `None` iff the model is
unfitted. -/
def Model.y_knots (m : Model) : Option (ℕ → List ℚ) :=
  m.state.map WState.yknots

/-- `AffineWarping.__init__` (lines 14-31): rejects a negative knot count,
otherwise stores the configuration and leaves the model unfitted. -/
def affineWarpingInit (n_knots : ℤ) (warpreg l2_smoothness min_temp max_temp : ℚ) :
    Except String Model :=
  if n_knots < 0 then Except.error ("Number of knots must be nonnegative.")
  else Except.ok
    { n_knots := n_knots.toNat
      warpreg := warpreg
      l2_smoothness := l2_smoothness
      min_temp := min_temp
      max_temp := max_temp
      state := none
      q1 := none
      q2 := none }

/-- The uninitialized-model error message raised by `continue_fit`,
`predict`, `argsort_warps` and `transform` (the `op` argument is the name
of the calling method). -/
def notInitMsg (op : String) : String :=
  "Model not initialized. Need to call \x27AffineWarping.fit(...)\x27 before calling \x27AffineWarping." ++ op ++ "(...)\x27."

/-- `AffineWarping.continue_fit` (lines 84-131): raises the
uninitialized-model error when `fit` has not run, raises on a channel
mismatch (`data.shape[-1] != self.template.shape[1]`), and otherwise runs
the alternation loop on the stored state. -/
def model_continue_fit (km : Kernels) (data : NDArray)
    (iterations warp_iterations : ℕ) (fitTemplate : Bool)
    (idraws : ℕ → ℕ → WarpDraw) (m : Model) : Except String Model :=
  match m.state with
  | none => Except.error (notInitMsg "continue_fit")
  | some st =>
    if data.shape.getLast? = some st.N then
      Except.ok
        { m with
          state :=
            some (continue_fit_run km m.n_knots m.warpreg m.min_temp m.max_temp
              iterations warp_iterations fitTemplate idraws st) }
    else Except.error ("Dimension mismatch.")

/-- `AffineWarping.predict` (lines 200-211): raises the
uninitialized-model error when `fit` has not run, otherwise warps the
template through every trial's warp via the `predictwarp` kernel. -/
def model_predict (km : Kernels) (m : Model) : Except String (ℕ → ℕ → ℕ → ℚ) :=
  match m.state with
  | none => Except.error (notInitMsg "predict")
  | some st => Except.ok (km.predictK st.xknots st.yknots st.template)

/-- Stable ascending argsort of `y 0, …, y (K-1)`, as `np.argsort`. -/
def argsortList (y : ℕ → ℚ) (K : ℕ) : List ℕ :=
  (List.range K).mergeSort (fun i j => decide (y i ≤ y j))

/-- `AffineWarping.argsort_warps` (lines 213-228): raises the
uninitialized-model error when `fit` has not run (before the range check
on `t`), raises when `t` is outside `[0, 1]`, and otherwise sorts the
trials by their warp evaluated at `t`. -/
def model_argsort_warps (km : Kernels) (m : Model) (t : ℚ) :
    Except String (List ℕ) :=
  match m.state with
  | none => Except.error (notInitMsg "argsort_warps")
  | some st =>
    if t < 0 ∨ 1 < t then Except.error ("t must be between zero and one.")
    else Except.ok (argsortList (fun k => km.sparsewarpK st.xknots st.yknots k t) st.K)

/-- `X[:, :, None]` for a 2-dimensional input of `transform` (line 242):
append a singleton channel axis. -/
def NDArray.expand3 (X : NDArray) : NDArray :=
  if X.shape.length = 2 then
    { shape := X.shape ++ [1], numeric := X.numeric, val := fun k t _ => X.val k t 0 }
  else X

/-- `AffineWarping.transform` (lines 230-276), dense path: raises the
uninitialized-model error when `fit` has not run (before any shape
check), raises on a wrong-rank input, raises on a trial-count mismatch,
and otherwise applies the inverse warp via the `densewarp` kernel (note
the swapped knot arrays). -/
def model_transform (km : Kernels) (m : Model) (X : NDArray) :
    Except String (ℕ → ℕ → ℕ → ℚ) :=
  match m.state with
  | none => Except.error (notInitMsg "transform")
  | some st =>
    if X.ndim = 2 ∨ X.ndim = 3 then
      if X.K = st.K then
        Except.ok (km.densewarpK st.yknots st.xknots X.expand3.val)
      else
        Except.error ("Number of trials in the input does not match the number of trials in the fitted model.")
    else Except.error ("Input should be 2d or 3d array.")

/-- The `AttributeError` message for the never-assigned `loss_hist` on an
unfitted instance. -/
def attrLossHistMsg : String :=
  "\x27AffineWarping\x27 object has no attribute \x27loss_hist\x27"

/-- The `AttributeError` message for the never-assigned `q1`. -/
def attrQ1Msg : String :=
  "\x27AffineWarping\x27 object has no attribute \x27q1\x27"

/-- The `AttributeError` message for the never-assigned `q2`. -/
def attrQ2Msg : String :=
  "\x27AffineWarping\x27 object has no attribute \x27q2\x27"

/-- `AffineWarping.dump_params` (lines 278-289): builds the snapshot dict
in source order.  Reading `self.loss_hist` on an unfitted instance, or
`self.q1` / `self.q2` on any instance that never assigned them, raises
`AttributeError` (modelled as `Except.error`). -/
def dump_params (m : Model) : Except String DumpedParams :=
  match m.state with
  | none => Except.error attrLossHistMsg
  | some st =>
    match m.q1 with
    | none => Except.error attrQ1Msg
    | some a =>
      match m.q2 with
      | none => Except.error attrQ2Msg
      | some b =>
        Except.ok
          { template := st.template
            x_knots := st.xknots
            y_knots := st.yknots
            loss_hist := st.loss_hist
            l2_smoothness := m.l2_smoothness
            q1 := a
            q2 := b }

/-- `AffineWarping.fit` (lines 41-82): initialize the session state, then
delegate to `continue_fit` on the updated instance. -/
def model_fit (km : Kernels) (iterations warp_iterations : ℕ)
    (fitTemplate : Bool) (junkNL junkNP : ℕ → ℚ) (idraws : ℕ → ℕ → WarpDraw)
    (m : Model) (data : NDArray) : Except String Model :=
  match fitInit km m.n_knots junkNL junkNP data with
  | Except.error e => Except.error e
  | Except.ok st0 =>
    model_continue_fit km data iterations warp_iterations fitTemplate idraws
      { m with state := some st0 }

/-- Agreement of two fitting states on everything except the penalty
arrays and the scratch buffers. -/
def Agree (s t : WState) : Prop :=
  s.K = t.K ∧ s.xknots = t.xknots ∧ s.yknots = t.yknots ∧
  s.losses = t.losses ∧ s.template = t.template ∧ s.loss_hist = t.loss_hist

/-- A trivial kernel bundle used as a concrete witness input. -/
def kernelsSample : Kernels :=
  { penalty := fun _ _ => 0
    recon := fun _ _ _ _ => 0
    tmpl := fun _ _ => fun _ _ => 0
    quad0 := fun _ _ _ _ => 0
    predictK := fun _ _ _ => fun _ _ _ => 0
    sparsewarpK := fun _ _ _ _ => 0
    densewarpK := fun _ _ _ => fun _ _ _ => 0 }

/-- Zero Gaussian draws used as a concrete witness input. -/
def drawsSample : ℕ → ℕ → WarpDraw :=
  fun _ _ => { gx := fun _ _ => 0, gy := fun _ _ => 0 }

/-- A concrete 1-trial, 2-timepoint, 1-channel data tensor of zeros. -/
def dataSample : NDArray :=
  { shape := [1, 2, 1], numeric := true, val := fun _ _ _ => 0 }

/-- A concrete fitting state used as a witness input. -/
def stSample : WState :=
  { K := 1, T := 2, N := 1
    tref := linspace 0 1 2
    template := fun _ _ => 0
    xknots := fun _ => linspace 0 1 2
    yknots := fun _ => linspace 0 1 2
    losses := fun _ => 3
    penalties := fun _ => 0
    newLosses := fun _ => 0
    newPenalties := fun _ => 0
    loss_hist := [3] }

/-- A concrete candidate input used as a witness input: its total
objective (5) is worse than the current loss (3) of `stSample`. -/
def inpSample : StepInput :=
  { X := fun _ => [0, 1]
    Y := fun _ => [0, 1]
    pen := fun _ => 0
    recon := fun _ => 5 }

/-- `stSample` with different contents in the penalty array and the two
scratch buffers (and nothing else changed). -/
def stSample2 : WState :=
  { stSample with
    penalties := fun _ => 7
    newLosses := fun _ => 5
    newPenalties := fun _ => 9 }

/-- The directly-constructed model produced by
`affineWarpingInit 0 0 0 (-2) 0`. -/
def modelSample0 : Model :=
  { n_knots := 0
    warpreg := 0
    l2_smoothness := 0
    min_temp := -2
    max_temp := 0
    state := none
    q1 := none
    q2 := none }

/-- A fitted model literal whose `q1` and `q2` have been supplied (as a
subclass would), used as a witness input. -/
def modelFittedLit : Model :=
  { modelSample0 with state := some stSample, q1 := some 1, q2 := some 2 }

/-- The model obtained by fitting `modelSample0` on `dataSample` with zero
alternation rounds (so only the `fit` initialization runs). -/
def fittedSample : Model :=
  match model_fit kernelsSample 0 0 true (fun _ => 0) (fun _ => 0) drawsSample
      modelSample0 dataSample with
  | Except.ok m => m
  | Except.error _ => modelSample0

/- Helper lemmas about `linspace` -/

theorem linspace_length (a b : ℚ) (n : ℕ) : (linspace a b n).length = n := by
  simp [linspace]

theorem linspace_get? (a b : ℚ) (n i : ℕ) (h : i < n) :
    (linspace a b n).get? i = some (a + (b - a) * (i : ℚ) / ((n : ℚ) - 1)) := by
  rw [linspace, List.get?_map, List.get?_range h, Option.map_some']

theorem linspace_head? (a b : ℚ) (n : ℕ) (h : 0 < n) :
    (linspace a b n).head? = some a := by
  rw [← List.get?_zero, linspace_get? a b n 0 h]
  norm_num

theorem linspace_getLast? (a b : ℚ) (n : ℕ) (h : 2 ≤ n) :
    (linspace a b n).getLast? = some b := by
  obtain ⟨m, rfl⟩ : ∃ m, n = m + 1 := ⟨n - 1, by omega⟩
  rw [linspace, List.range_succ, List.map_append, List.map_singleton,
    List.getLast?_concat]
  have hm : (m : ℚ) ≠ 0 := Nat.cast_ne_zero.mpr (by omega)
  congr 1
  push_cast
  rw [add_sub_cancel_right, mul_div_assoc, div_self hm, mul_one]
  ring

theorem linspace_pairwise_lt (a b : ℚ) (n : ℕ) (hab : a < b) (hn : 2 ≤ n) :
    (linspace a b n).Pairwise (· < ·) := by
  rw [linspace]
  refine List.Pairwise.map _ ?_ (List.pairwise_lt_range n)
  intro i j hij
  have hden : (0 : ℚ) < (n : ℚ) - 1 := by
    have : (2 : ℚ) ≤ (n : ℚ) := by exact_mod_cast hn
    linarith
  have hij' : (i : ℚ) < (j : ℚ) := by exact_mod_cast hij
  have hba : (0 : ℚ) < b - a := by linarith
  have hnum : (b - a) * (i : ℚ) < (b - a) * (j : ℚ) := by nlinarith
  have := div_lt_div_of_pos_right hnum hden
  linarith

theorem linspace_pairwise_le (a b : ℚ) (n : ℕ) (hab : a ≤ b) :
    (linspace a b n).Pairwise (· ≤ ·) := by
  rcases lt_or_le n 2 with hn | hn
  · interval_cases n <;> simp [linspace, List.range_succ]
  rcases eq_or_lt_of_le hab with rfl | hab'
  · rw [linspace]
    refine List.Pairwise.map _ ?_ (List.pairwise_lt_range n)
    intro i j _
    simp
  · exact (linspace_pairwise_lt a b n hab' hn).imp le_of_lt

/- C1: the temperature schedule -/

/-- C1, counterexample.  The claim says the first perturbation uses the
smallest temperature `10 ^ min_temp`.  At `min_temp = -2`, `max_temp = 0`,
`iterations = 2`, the first visited temperature has exponent `0 = max_temp`
(the largest), not `-2 = min_temp`: the schedule is visited hottest first. -/
theorem c1_schedule_counterexample :
    (visitedTemperatures (-2) 0 2).head? = some 0 ∧
    (visitedTemperatures (-2) 0 2).head? ≠ some (-2) := by
  have h : (visitedTemperatures (-2) 0 2).head? = some 0 := by
    rw [visitedTemperatures, List.head?_reverse, temperatureExps,
      linspace_getLast? (-2) 0 2 (by norm_num)]
  refine ⟨h, ?_⟩
  rw [h]
  intro hc
  rw [Option.some.injEq] at hc
  norm_num at hc

/-- C1, amended.  `fit_warps` builds a schedule of exactly `iterations`
temperatures, log-spaced between `10 ^ min_temp` and `10 ^ max_temp`
(entries here are the base-10 exponents; `x ↦ 10 ^ x` is strictly
increasing, so the order of temperatures is the order of exponents), and
visits them in strictly DESCENDING order: the first perturbation uses the
largest temperature `10 ^ max_temp` and the last uses the smallest
`10 ^ min_temp`. -/
theorem c1_schedule_descending (a b : ℚ) (n : ℕ) (hab : a < b) (hn : 2 ≤ n) :
    (visitedTemperatures a b n).length = n ∧
    (visitedTemperatures a b n).head? = some b ∧
    (visitedTemperatures a b n).getLast? = some a ∧
    (visitedTemperatures a b n).Chain' (· > ·) := by
  refine ⟨?_, ?_, ?_, ?_⟩
  · rw [visitedTemperatures, List.length_reverse, temperatureExps, linspace_length]
  · rw [visitedTemperatures, List.head?_reverse, temperatureExps,
      linspace_getLast? a b n hn]
  · rw [visitedTemperatures, List.getLast?_reverse, temperatureExps,
      linspace_head? a b n (by omega)]
  · refine List.Pairwise.chain' ?_
    rw [visitedTemperatures, List.pairwise_reverse, temperatureExps]
    exact linspace_pairwise_lt a b n hab hn

/-- C1, witness for `c1_schedule_descending` at
`min_temp = -2`, `max_temp = 0`, `iterations = 2`. -/
theorem c1_schedule_descending_witness :
    (visitedTemperatures (-2) 0 2).length = 2 ∧
    (visitedTemperatures (-2) 0 2).head? = some 0 ∧
    (visitedTemperatures (-2) 0 2).getLast? = some (-2) ∧
    (visitedTemperatures (-2) 0 2).Chain' (· > ·) :=
  c1_schedule_descending (-2) 0 2 (by norm_num) (by norm_num)

/- Helper lemmas for the smoothness band (C2) -/

theorem sum_indicator_shift (n j k : ℕ) (c : ℚ) :
    (∑ i in Finset.range n, if i + k = j then c else 0) =
      if k ≤ j ∧ j - k < n then c else 0 := by
  rcases le_or_lt k j with hk | hk
  · have he : ∀ i : ℕ, (i + k = j) = (i = j - k) :=
      fun i => propext ⟨fun h => by omega, fun h => by omega⟩
    simp only [he]
    rw [Finset.sum_ite_eq' (Finset.range n) (j - k) (fun _ => c)]
    simp [Finset.mem_range, hk]
  · rw [Finset.sum_eq_zero, if_neg (by omega)]
    intro i _
    rw [if_neg (by omega)]

theorem D2mat_mul_self (i j : ℕ) :
    D2mat i j * D2mat i j =
      (if i + 0 = j then (1 : ℚ) else 0) + (if i + 1 = j then 4 else 0) +
        (if i + 2 = j then 1 else 0) := by
  unfold D2mat
  split_ifs <;> first | omega | norm_num

theorem D2mat_mul_next (i j : ℕ) :
    D2mat i j * D2mat i (j + 1) =
      (if i + 0 = j then (-2 : ℚ) else 0) + (if i + 1 = j then -2 else 0) := by
  unfold D2mat
  split_ifs <;> first | omega | norm_num

theorem D2mat_mul_next2 (i j : ℕ) :
    D2mat i j * D2mat i (j + 2) = (if i + 0 = j then (1 : ℚ) else 0) := by
  unfold D2mat
  split_ifs <;> first | omega | norm_num

theorem DtD_diag (T j : ℕ) :
    DtD T j j =
      (if 0 ≤ j ∧ j - 0 < T - 2 then (1 : ℚ) else 0) +
        (if 1 ≤ j ∧ j - 1 < T - 2 then 4 else 0) +
        (if 2 ≤ j ∧ j - 2 < T - 2 then 1 else 0) := by
  unfold DtD
  simp only [D2mat_mul_self]
  rw [Finset.sum_add_distrib, Finset.sum_add_distrib, sum_indicator_shift,
    sum_indicator_shift, sum_indicator_shift]

theorem DtD_super1 (T j : ℕ) :
    DtD T j (j + 1) =
      (if 0 ≤ j ∧ j - 0 < T - 2 then (-2 : ℚ) else 0) +
        (if 1 ≤ j ∧ j - 1 < T - 2 then -2 else 0) := by
  unfold DtD
  simp only [D2mat_mul_next]
  rw [Finset.sum_add_distrib, sum_indicator_shift, sum_indicator_shift]

theorem DtD_super2 (T j : ℕ) :
    DtD T j (j + 2) = (if 0 ≤ j ∧ j - 0 < T - 2 then (1 : ℚ) else 0) := by
  unfold DtD
  simp only [D2mat_mul_next2]
  rw [sum_indicator_shift]

/- C2: the smoothness band of `fit_template` -/

/-- C2, counterexample.  The claim says the band added for
`l2_smoothness = 1` equals `DᵀD`; but at `T = 5` the diagonal entry of the
code's band at the last column (stored in `WtW[2, 4]`) is `6`, while
`(DᵀD)[4,4] = 1`: the right edge does NOT use the reduced coefficients. -/
theorem c2_band_counterexample : WtW2 1 4 ≠ 1 * DtD 5 4 4 := by
  rw [DtD_diag]
  unfold WtW2
  norm_num

/-- C2, amended.  For `l2_smoothness = s > 0` the band written by
`fit_template` (upper banded storage: `WtW2 s j` is diagonal entry
`(j,j)`, `WtW1 s j` is entry `(j-1,j)`, `WtW0 s j` is entry `(j-2,j)`)
agrees with `s · DᵀD` on the second off-diagonal everywhere and on the
diagonal and first off-diagonal away from the right edge — in particular
the LEFT edge uses the reduced coefficients `s·1`, `s·5`, `s·(-2)` — but
at the RIGHT edge the code keeps the interior coefficients: the last two
diagonal entries are `6s, 6s` where `s·DᵀD` has `5s, s`, and the last
first-off-diagonal entry is `-4s` where `s·DᵀD` has `-2s`. -/
theorem c2_band (s : ℚ) (T j : ℕ) (hT : 4 ≤ T) :
    (j + 3 ≤ T → WtW2 s j = s * DtD T j j) ∧
    (1 ≤ j → j + 2 ≤ T → WtW1 s j = s * DtD T (j - 1) j) ∧
    (2 ≤ j → j < T → WtW0 s j = s * DtD T (j - 2) j) ∧
    (WtW2 s (T - 2) = 6 * s ∧ s * DtD T (T - 2) (T - 2) = 5 * s) ∧
    (WtW2 s (T - 1) = 6 * s ∧ s * DtD T (T - 1) (T - 1) = s) ∧
    (WtW1 s (T - 1) = -4 * s ∧ s * DtD T (T - 2) (T - 1) = -2 * s) := by
  refine ⟨?_, ?_, ?_, ⟨?_, ?_⟩, ⟨?_, ?_⟩, ⟨?_, ?_⟩⟩
  · intro h
    rw [DtD_diag]
    unfold WtW2
    split_ifs <;> first | ring1 | (exfalso; omega)
  · intro h1 h2
    obtain ⟨i, rfl⟩ : ∃ i, j = i + 1 := ⟨j - 1, by omega⟩
    rw [Nat.add_sub_cancel, DtD_super1]
    unfold WtW1
    split_ifs <;> first | ring1 | (exfalso; omega)
  · intro h1 h2
    obtain ⟨i, rfl⟩ : ∃ i, j = i + 2 := ⟨j - 2, by omega⟩
    rw [Nat.add_sub_cancel, DtD_super2]
    unfold WtW0
    split_ifs <;> first | ring1 | (exfalso; omega)
  · unfold WtW2
    rw [if_pos (by omega)]
  · rw [DtD_diag]
    split_ifs <;> first | ring1 | (exfalso; omega)
  · unfold WtW2
    rw [if_pos (by omega)]
  · rw [DtD_diag]
    split_ifs <;> first | ring1 | (exfalso; omega)
  · unfold WtW1
    rw [if_pos (by omega)]
  · have h1 : T - 1 = (T - 2) + 1 := by omega
    rw [h1, DtD_super1]
    split_ifs <;> first | ring1 | (exfalso; omega)

/-- C2, witness for `c2_band` at `s = 1`, `T = 5`, `j = 2`: the diagonal
entry at an interior column matches `DᵀD`. -/
theorem c2_band_witness : WtW2 1 2 = 1 * DtD 5 2 2 :=
  (c2_band 1 5 2 (by norm_num)).1 (by norm_num)

/- Helper lemmas for the acceptance step (C3, C4) -/

theorem warpStep_proj (warpreg : ℚ) (inp : StepInput) (st : WState) (k : ℕ) :
    (warpStep warpreg inp st).xknots k
        = (if candidateTotal warpreg inp k < st.losses k then inp.X k else st.xknots k) ∧
    (warpStep warpreg inp st).yknots k
        = (if candidateTotal warpreg inp k < st.losses k then inp.Y k else st.yknots k) ∧
    (warpStep warpreg inp st).losses k
        = (if candidateTotal warpreg inp k < st.losses k
            then candidateTotal warpreg inp k else st.losses k) ∧
    (warpStep warpreg inp st).penalties k
        = (if candidateTotal warpreg inp k < st.losses k
            then (if 0 < warpreg then warpreg * inp.pen k else st.newPenalties k)
            else st.penalties k) := by
  by_cases hw : 0 < warpreg <;>
    simp [warpStep, candidateTotal, hw, add_comm]

theorem warpStep_losses_le (warpreg : ℚ) (inp : StepInput) (st : WState) (k : ℕ) :
    (warpStep warpreg inp st).losses k ≤ st.losses k := by
  obtain ⟨-, -, hl, -⟩ := warpStep_proj warpreg inp st k
  rw [hl]
  split_ifs with h
  · exact le_of_lt h
  · exact le_rfl

theorem warpStep_losses_lt_or_eq (warpreg : ℚ) (inp : StepInput) (st : WState) (k : ℕ) :
    (warpStep warpreg inp st).losses k < st.losses k ∨
      (warpStep warpreg inp st).losses k = st.losses k := by
  obtain ⟨-, -, hl, -⟩ := warpStep_proj warpreg inp st k
  rw [hl]
  split_ifs with h
  · exact Or.inl h
  · exact Or.inr rfl

theorem foldl_losses_le (f : WState → ℕ → WState)
    (h : ∀ s i k, (f s i).losses k ≤ s.losses k) :
    ∀ (l : List ℕ) (s : WState) (k : ℕ), (l.foldl f s).losses k ≤ s.losses k := by
  intro l
  induction l with
  | nil => intro s k; exact le_rfl
  | cons a t ih => intro s k; exact le_trans (ih (f s a) k) (h s a k)

/- C3: the acceptance criterion of `fit_warps` -/

/-- C3, confirmed.  In every temperature step, for each trial `k`
independently: the candidate replaces the current knots, loss entry and
penalty entry iff its total objective (reconstruction loss plus
`warpreg`-weighted penalty when `warpreg > 0`) is strictly below the
trial's current total objective (`_losses[k]`, which already includes the
stored penalty); when the comparison fails, `x_knots[k]`, `y_knots[k]`,
the loss entry and the penalty entry are all unchanged.  (The stored
penalty value for an accepted trial is `warpreg * pen k` when
`warpreg > 0`, and the scratch-buffer content `_new_penalties[k]` when
`warpreg = 0`, exactly as in lines 146-161 of the source.) -/
theorem c3_acceptance (warpreg : ℚ) (inp : StepInput) (st : WState) (k : ℕ) :
    (candidateTotal warpreg inp k < st.losses k →
      (warpStep warpreg inp st).xknots k = inp.X k ∧
      (warpStep warpreg inp st).yknots k = inp.Y k ∧
      (warpStep warpreg inp st).losses k = candidateTotal warpreg inp k ∧
      (warpStep warpreg inp st).penalties k
        = (if 0 < warpreg then warpreg * inp.pen k else st.newPenalties k)) ∧
    (¬ candidateTotal warpreg inp k < st.losses k →
      (warpStep warpreg inp st).xknots k = st.xknots k ∧
      (warpStep warpreg inp st).yknots k = st.yknots k ∧
      (warpStep warpreg inp st).losses k = st.losses k ∧
      (warpStep warpreg inp st).penalties k = st.penalties k) := by
  obtain ⟨hx, hy, hl, hp⟩ := warpStep_proj warpreg inp st k
  constructor <;> intro h
  · rw [hx, hy, hl, hp]
    simp only [if_pos h]
    exact ⟨trivial, trivial, trivial, trivial⟩
  · rw [hx, hy, hl, hp]
    simp only [if_neg h]
    exact ⟨trivial, trivial, trivial, trivial⟩

/-- C3, witness for `c3_acceptance` at `warpreg = 0`, the sample state
(current loss 3) and the sample candidate (total objective 5): the
comparison fails and every entry is unchanged. -/
theorem c3_acceptance_witness :
    (warpStep 0 inpSample stSample).xknots 0 = stSample.xknots 0 ∧
    (warpStep 0 inpSample stSample).yknots 0 = stSample.yknots 0 ∧
    (warpStep 0 inpSample stSample).losses 0 = stSample.losses 0 ∧
    (warpStep 0 inpSample stSample).penalties 0 = stSample.penalties 0 :=
  (c3_acceptance 0 inpSample stSample 0).2 (by norm_num [candidateTotal, inpSample, stSample])

/- C4: per-trial losses never increase -/

/-- C4, confirmed.  For every trial `k`: each temperature step of
`fit_warps` leaves the stored loss entry no larger than before (an
accepted trial strictly improves, a rejected trial ties), and hence the
per-trial loss array after a full `fit_warps` call is elementwise at most
the array before the call. -/
theorem c4_losses_nonincreasing (km : Kernels) (n_knots : ℕ)
    (warpreg min_temp max_temp : ℚ) (iterations : ℕ) (draws : ℕ → WarpDraw)
    (st : WState) (k : ℕ) :
    (∀ d s, (fitWarpsStep km n_knots warpreg d s).losses k ≤ s.losses k) ∧
    (∀ d s, (fitWarpsStep km n_knots warpreg d s).losses k < s.losses k ∨
      (fitWarpsStep km n_knots warpreg d s).losses k = s.losses k) ∧
    (fit_warps km n_knots warpreg min_temp max_temp iterations draws st).losses k
      ≤ st.losses k := by
  refine ⟨?_, ?_, ?_⟩
  · intro d s
    exact warpStep_losses_le warpreg (stepInputOf km n_knots d s) s k
  · intro d s
    exact warpStep_losses_lt_or_eq warpreg (stepInputOf km n_knots d s) s k
  · unfold fit_warps
    exact foldl_losses_le _
      (fun s i k' => warpStep_losses_le warpreg (stepInputOf km n_knots (draws i) s) s k')
      _ st k

/- Helper lemmas for the knot invariant (C5) -/

theorem repairAux_cons2 (acc v r : ℚ) (rs : List ℚ) :
    repairAux acc (v :: r :: rs)
      = max acc (min v 1) :: repairAux (max acc (min v 1)) (r :: rs) := rfl

theorem repairAux_spec (rest : List ℚ) : ∀ acc : ℚ, acc ≤ 1 →
    (repairAux acc rest).length = rest.length ∧
    (repairAux acc rest).Chain' (· ≤ ·) ∧
    (∀ h ∈ (repairAux acc rest).head?, acc ≤ h ∧ h ≤ 1) ∧
    (rest ≠ [] → (repairAux acc rest).getLast? = some 1) := by
  induction rest with
  | nil =>
    intro acc hacc
    refine ⟨rfl, ?_, ?_, ?_⟩ <;> simp [repairAux]
  | cons v rest ih =>
    intro acc hacc
    cases rest with
    | nil =>
      refine ⟨rfl, ?_, ?_, ?_⟩
      · simp [repairAux]
      · intro h hh
        simp only [repairAux, List.head?_cons, Option.mem_def, Option.some.injEq] at hh
        subst hh
        exact ⟨hacc, le_rfl⟩
      · intro _
        simp [repairAux]
    | cons r rs =>
      have hw : max acc (min v 1) ≤ 1 := max_le hacc (min_le_right v 1)
      obtain ⟨ihlen, ihchain, ihhead, ihlast⟩ := ih (max acc (min v 1)) hw
      refine ⟨?_, ?_, ?_, ?_⟩
      · rw [repairAux_cons2, List.length_cons, ihlen]
        simp [List.length_cons]
      · rw [repairAux_cons2]
        exact List.chain'_cons'.mpr ⟨fun y hy => (ihhead y hy).1, ihchain⟩
      · rw [repairAux_cons2]
        intro h hh
        simp only [List.head?_cons, Option.mem_def, Option.some.injEq] at hh
        subst hh
        exact ⟨le_max_left _ _, hw⟩
      · intro _
        rw [repairAux_cons2]
        have hne : repairAux (max acc (min v 1)) (r :: rs) ≠ [] := by
          intro hc
          rw [hc] at ihlen
          simp at ihlen
        obtain ⟨z, zs, hz⟩ := List.exists_cons_of_ne_nil hne
        rw [hz, List.getLast?_cons_cons, ← hz]
        exact ihlast (by simp)

theorem repairRow_valid (r : List ℚ) (h : 2 ≤ r.length) :
    validRow (repairRow r) := by
  obtain ⟨v, rest, rfl⟩ : ∃ v rest, r = v :: rest := by
    cases r with
    | nil => simp at h
    | cons a t => exact ⟨a, t, rfl⟩
  have hrest : rest ≠ [] := by
    intro hc
    subst hc
    simp at h
  obtain ⟨hlen, hchain, hhead, hlast⟩ := repairAux_spec rest 0 (by norm_num)
  have hne : repairAux 0 rest ≠ [] := by
    intro hc
    rw [hc] at hlen
    exact hrest (List.length_eq_zero.mp hlen.symm)
  refine ⟨rfl, ?_, ?_⟩
  · obtain ⟨z, zs, hz⟩ := List.exists_cons_of_ne_nil hne
    show (0 :: repairAux 0 rest).getLast? = some 1
    rw [hz, List.getLast?_cons_cons, ← hz]
    exact hlast hrest
  · show (0 :: repairAux 0 rest).Chain' (· ≤ ·)
    exact List.chain'_cons'.mpr ⟨fun y hy => (hhead y hy).1, hchain⟩

theorem perturbY_length (g : ℕ → ℚ) (row : List ℚ) :
    (perturbY g row).length = row.length := by
  simp [perturbY]

theorem perturbX_length (n_knots : ℕ) (g : ℕ → ℚ) (row : List ℚ) :
    (perturbX n_knots g row).length = row.length := by
  unfold perturbX
  split_ifs <;> simp

theorem validRow_two_le (r : List ℚ) (h : validRow r) : 2 ≤ r.length := by
  obtain ⟨h0, h1, -⟩ := h
  cases r with
  | nil => simp at h0
  | cons a t =>
    cases t with
    | nil =>
      simp only [List.head?_cons, Option.some.injEq] at h0
      simp only [List.getLast?_singleton, Option.some.injEq] at h1
      rw [h0] at h1
      norm_num at h1
    | cons b u =>
      simp only [List.length_cons]
      omega

theorem mutate_knots_valid (n_knots : ℕ) (gx gy : ℕ → ℕ → ℚ)
    (x y : ℕ → List ℚ) (k : ℕ) (hx : 2 ≤ (x k).length) (hy : 2 ≤ (y k).length) :
    validRow ((mutate_knots n_knots gx gy x y).1 k) ∧
    validRow ((mutate_knots n_knots gx gy x y).2 k) := by
  unfold mutate_knots
  constructor
  · apply repairRow_valid
    rw [perturbX_length]
    exact hx
  · apply repairRow_valid
    rw [perturbY_length]
    exact hy

theorem validRow_01 : validRow [0, 1] := by
  refine ⟨rfl, rfl, ?_⟩
  simp

/- C5: the knot-set invariant -/

/-- C5, confirmed (note: `_force_monotonic_knots` is modelled from the
spec, see `repairRow`).  The initial knot rows `linspace 0 1 (n_knots+2)`
satisfy the invariant (non-decreasing, first entry 0, last entry 1); both
rows of every candidate produced by `_mutate_knots` satisfy the invariant
after monotonicity repair; and the acceptance step of `fit_warps` only
ever stores rows that are either the (valid) previous rows or the (valid)
repaired candidate rows, so no invalid knot set is ever stored or offered
to the acceptance comparison. -/
theorem c5_knot_invariant (n_knots : ℕ) (gx gy : ℕ → ℕ → ℚ)
    (x y : ℕ → List ℚ) (k : ℕ) (hx : validRow (x k)) (hy : validRow (y k)) :
    validRow (linspace 0 1 (n_knots + 2)) ∧
    validRow ((mutate_knots n_knots gx gy x y).1 k) ∧
    validRow ((mutate_knots n_knots gx gy x y).2 k) ∧
    (∀ (km : Kernels) (warpreg : ℚ) (d : WarpDraw) (st : WState),
      (∀ j, validRow (st.xknots j)) → (∀ j, validRow (st.yknots j)) →
      validRow ((fitWarpsStep km n_knots warpreg d st).xknots k) ∧
      validRow ((fitWarpsStep km n_knots warpreg d st).yknots k)) := by
  obtain ⟨hm1, hm2⟩ :=
    mutate_knots_valid n_knots gx gy x y k (validRow_two_le _ hx) (validRow_two_le _ hy)
  refine ⟨⟨?_, ?_, ?_⟩, hm1, hm2, ?_⟩
  · exact linspace_head? 0 1 (n_knots + 2) (by omega)
  · exact linspace_getLast? 0 1 (n_knots + 2) (by omega)
  · exact (linspace_pairwise_le 0 1 (n_knots + 2) (by norm_num)).chain'
  · intro km warpreg d st hxs hys
    obtain ⟨hmx, hmy⟩ :=
      mutate_knots_valid n_knots d.gx d.gy st.xknots st.yknots k
        (validRow_two_le _ (hxs k)) (validRow_two_le _ (hys k))
    obtain ⟨hpx, hpy, -, -⟩ :=
      warpStep_proj warpreg (stepInputOf km n_knots d st) st k
    constructor
    · show (warpStep warpreg (stepInputOf km n_knots d st) st).xknots k |> validRow
      rw [hpx]
      split_ifs
      · exact hmx
      · exact hxs k
    · show (warpStep warpreg (stepInputOf km n_knots d st) st).yknots k |> validRow
      rw [hpy]
      split_ifs
      · exact hmy
      · exact hys k

/-- C5, witness for `c5_knot_invariant` with `n_knots = 0`, zero draws and
the identity rows `[0, 1]`. -/
theorem c5_knot_invariant_witness :
    validRow (linspace 0 1 (0 + 2)) ∧
    validRow ((mutate_knots 0 (fun _ _ => 0) (fun _ _ => 0)
      (fun _ => [0, 1]) (fun _ => [0, 1])).1 0) :=
  ⟨(c5_knot_invariant 0 (fun _ _ => 0) (fun _ _ => 0)
      (fun _ => [0, 1]) (fun _ => [0, 1]) 0 validRow_01 validRow_01).1,
   (c5_knot_invariant 0 (fun _ _ => 0) (fun _ _ => 0)
      (fun _ => [0, 1]) (fun _ => [0, 1]) 0 validRow_01 validRow_01).2.1⟩

/- C9: candidate generation is frame-preserving -/

theorem fitWarpsStep_knots_source (km : Kernels) (n_knots : ℕ) (warpreg : ℚ)
    (d : WarpDraw) (s : WState) (k : ℕ) :
    ((fitWarpsStep km n_knots warpreg d s).xknots k = s.xknots k ∧
      (fitWarpsStep km n_knots warpreg d s).yknots k = s.yknots k) ∨
    ((fitWarpsStep km n_knots warpreg d s).xknots k
        = (mutate_knots n_knots d.gx d.gy s.xknots s.yknots).1 k ∧
      (fitWarpsStep km n_knots warpreg d s).yknots k
        = (mutate_knots n_knots d.gx d.gy s.xknots s.yknots).2 k) := by
  obtain ⟨hx, hy, -, -⟩ := warpStep_proj warpreg (stepInputOf km n_knots d s) s k
  unfold fitWarpsStep
  by_cases h : candidateTotal warpreg (stepInputOf km n_knots d s) k < s.losses k
  · right
    constructor
    · rw [hx, if_pos h]
      rfl
    · rw [hy, if_pos h]
      rfl
  · left
    constructor
    · rw [hx, if_neg h]
    · rw [hy, if_neg h]

theorem foldl_knots_sources (n_knots : ℕ) (k : ℕ) (f : WState → ℕ → WState)
    (h : ∀ s i,
      ((f s i).xknots k = s.xknots k ∧ (f s i).yknots k = s.yknots k) ∨
      (∃ gx gy xs ys,
        (f s i).xknots k = (mutate_knots n_knots gx gy xs ys).1 k ∧
        (f s i).yknots k = (mutate_knots n_knots gx gy xs ys).2 k)) :
    ∀ (l : List ℕ) (s : WState),
      ((l.foldl f s).xknots k = s.xknots k ∧ (l.foldl f s).yknots k = s.yknots k) ∨
      (∃ gx gy xs ys,
        (l.foldl f s).xknots k = (mutate_knots n_knots gx gy xs ys).1 k ∧
        (l.foldl f s).yknots k = (mutate_knots n_knots gx gy xs ys).2 k) := by
  intro l
  induction l with
  | nil => intro s; exact Or.inl ⟨rfl, rfl⟩
  | cons a u ih =>
    intro s
    simp only [List.foldl_cons]
    rcases ih (f s a) with ⟨hx1, hy1⟩ | hex
    · rcases h s a with ⟨hx2, hy2⟩ | ⟨gx, gy, xs, ys, h1, h2⟩
      · exact Or.inl ⟨hx1.trans hx2, hy1.trans hy2⟩
      · exact Or.inr ⟨gx, gy, xs, ys, hx1.trans h1, hy1.trans h2⟩
    · exact Or.inr hex

/-- C9, confirmed.  Candidate generation has no effect on the model state:
in this embedding `_mutate_knots` is the pure function `mutate_knots` of
the current knots and the Gaussian draws alone (it reads none of the loss
or penalty state, and the source operates on `.copy()`s), and the knot
rows of the state change only through the per-trial acceptance
assignment: after one step each trial's row pair is either unchanged or
equal to that step's repaired candidate pair, and after a full
`fit_warps` call each trial's row pair is either the initial pair or the
output pair of `mutate_knots` on some draw and some intermediate knots. -/
theorem c9_mutation_frame (km : Kernels) (n_knots : ℕ)
    (warpreg min_temp max_temp : ℚ) (iterations : ℕ) (draws : ℕ → WarpDraw)
    (st : WState) (k : ℕ) :
    (∀ d s,
      ((fitWarpsStep km n_knots warpreg d s).xknots k = s.xknots k ∧
        (fitWarpsStep km n_knots warpreg d s).yknots k = s.yknots k) ∨
      ((fitWarpsStep km n_knots warpreg d s).xknots k
          = (mutate_knots n_knots d.gx d.gy s.xknots s.yknots).1 k ∧
        (fitWarpsStep km n_knots warpreg d s).yknots k
          = (mutate_knots n_knots d.gx d.gy s.xknots s.yknots).2 k)) ∧
    (((fit_warps km n_knots warpreg min_temp max_temp iterations draws st).xknots k
          = st.xknots k ∧
        (fit_warps km n_knots warpreg min_temp max_temp iterations draws st).yknots k
          = st.yknots k) ∨
      (∃ gx gy xs ys,
        (fit_warps km n_knots warpreg min_temp max_temp iterations draws st).xknots k
            = (mutate_knots n_knots gx gy xs ys).1 k ∧
        (fit_warps km n_knots warpreg min_temp max_temp iterations draws st).yknots k
            = (mutate_knots n_knots gx gy xs ys).2 k)) := by
  constructor
  · intro d s
    exact fitWarpsStep_knots_source km n_knots warpreg d s k
  · unfold fit_warps
    refine foldl_knots_sources n_knots k _ ?_ _ st
    intro s i
    rcases fitWarpsStep_knots_source km n_knots warpreg (draws i) s k with h | ⟨h1, h2⟩
    · exact Or.inl h
    · exact Or.inr ⟨(draws i).gx, (draws i).gy, s.xknots, s.yknots, h1, h2⟩

/- C10: penalty buffers do not interfere when `warpreg = 0` -/

theorem stepInputOf_congr (km : Kernels) (n_knots : ℕ) (d : WarpDraw)
    (s t : WState) (hx : s.xknots = t.xknots) (hy : s.yknots = t.yknots)
    (htp : s.template = t.template) :
    stepInputOf km n_knots d s = stepInputOf km n_knots d t := by
  unfold stepInputOf
  rw [hx, hy, htp]

theorem agree_warpStep (inp : StepInput) (s t : WState) (h : Agree s t) :
    Agree (warpStep 0 inp s) (warpStep 0 inp t) := by
  obtain ⟨hK, hx, hy, hl, htp, hh⟩ := h
  refine ⟨hK, ?_, ?_, ?_, htp, hh⟩
  · funext k
    obtain ⟨hxs, -, -, -⟩ := warpStep_proj 0 inp s k
    obtain ⟨hxt, -, -, -⟩ := warpStep_proj 0 inp t k
    rw [hxs, hxt, hl, hx]
  · funext k
    obtain ⟨-, hys, -, -⟩ := warpStep_proj 0 inp s k
    obtain ⟨-, hyt, -, -⟩ := warpStep_proj 0 inp t k
    rw [hys, hyt, hl, hy]
  · funext k
    obtain ⟨-, -, hls, -⟩ := warpStep_proj 0 inp s k
    obtain ⟨-, -, hlt, -⟩ := warpStep_proj 0 inp t k
    rw [hls, hlt, hl]

theorem agree_fitWarpsStep (km : Kernels) (n_knots : ℕ) (d : WarpDraw)
    (s t : WState) (h : Agree s t) :
    Agree (fitWarpsStep km n_knots 0 d s) (fitWarpsStep km n_knots 0 d t) := by
  unfold fitWarpsStep
  rw [stepInputOf_congr km n_knots d s t h.2.1 h.2.2.1 h.2.2.2.2.1]
  exact agree_warpStep (stepInputOf km n_knots d t) s t h

theorem foldl_rel (R : WState → WState → Prop) (f : WState → ℕ → WState)
    (h : ∀ s t i, R s t → R (f s i) (f t i)) :
    ∀ (l : List ℕ) (s t : WState), R s t → R (l.foldl f s) (l.foldl f t) := by
  intro l
  induction l with
  | nil => intro s t hst; exact hst
  | cons a u ih =>
    intro s t hst
    simp only [List.foldl_cons]
    exact ih _ _ (h s t a hst)

theorem agree_fit_warps (km : Kernels) (n_knots : ℕ) (min_temp max_temp : ℚ)
    (iterations : ℕ) (draws : ℕ → WarpDraw) (s t : WState) (h : Agree s t) :
    Agree (fit_warps km n_knots 0 min_temp max_temp iterations draws s)
      (fit_warps km n_knots 0 min_temp max_temp iterations draws t) := by
  unfold fit_warps
  exact foldl_rel Agree _ (fun s' t' i h' => agree_fitWarpsStep km n_knots (draws i) s' t' h') _ s t h

theorem agree_continueFitStep (km : Kernels) (n_knots : ℕ)
    (min_temp max_temp : ℚ) (warp_iterations : ℕ) (fitTemplate : Bool)
    (draws : ℕ → WarpDraw) (s t : WState) (h : Agree s t) :
    Agree (continueFitStep km n_knots 0 min_temp max_temp warp_iterations fitTemplate draws s)
      (continueFitStep km n_knots 0 min_temp max_temp warp_iterations fitTemplate draws t) := by
  have h1 := agree_fit_warps km n_knots min_temp max_temp warp_iterations draws s t h
  obtain ⟨hK, hx, hy, hl, htp, hh⟩ := h1
  unfold continueFitStep
  cases fitTemplate with
  | false =>
    simp only [Bool.false_eq_true, if_false]
    exact ⟨hK, hx, hy, hl, htp, by rw [hh, hK, hl]⟩
  | true =>
    simp only [if_true]
    have htpl :
        km.tmpl (fit_warps km n_knots 0 min_temp max_temp warp_iterations draws s).xknots
            (fit_warps km n_knots 0 min_temp max_temp warp_iterations draws s).yknots
          = km.tmpl (fit_warps km n_knots 0 min_temp max_temp warp_iterations draws t).xknots
            (fit_warps km n_knots 0 min_temp max_temp warp_iterations draws t).yknots := by
      rw [hx, hy]
    refine ⟨hK, hx, hy, ?_, htpl, ?_⟩
    · simp only [lt_irrefl, if_false]
      rw [hx, hy]
    · simp only [lt_irrefl, if_false]
      rw [hh, hK, hx, hy]

/-- C10, confirmed.  With `warpreg = 0`, no penalty value enters any loss
comparison or any recorded loss: two runs of the `continue_fit` loop that
start from states agreeing on the knots, losses, template, trial count
and loss history — but with arbitrary (different) contents in the
`_penalties` array and the never-initialized `_new_losses` and
`_new_penalties` buffers — produce identical knots, losses, template and
loss history. -/
theorem c10_penalty_noninterference (km : Kernels) (n_knots : ℕ)
    (min_temp max_temp : ℚ) (iterations warp_iterations : ℕ)
    (fitTemplate : Bool) (idraws : ℕ → ℕ → WarpDraw) (st1 st2 : WState)
    (hK : st1.K = st2.K) (hx : st1.xknots = st2.xknots)
    (hy : st1.yknots = st2.yknots) (hl : st1.losses = st2.losses)
    (ht : st1.template = st2.template) (hh : st1.loss_hist = st2.loss_hist) :
    (continue_fit_run km n_knots 0 min_temp max_temp iterations warp_iterations
        fitTemplate idraws st1).xknots
      = (continue_fit_run km n_knots 0 min_temp max_temp iterations warp_iterations
        fitTemplate idraws st2).xknots ∧
    (continue_fit_run km n_knots 0 min_temp max_temp iterations warp_iterations
        fitTemplate idraws st1).yknots
      = (continue_fit_run km n_knots 0 min_temp max_temp iterations warp_iterations
        fitTemplate idraws st2).yknots ∧
    (continue_fit_run km n_knots 0 min_temp max_temp iterations warp_iterations
        fitTemplate idraws st1).losses
      = (continue_fit_run km n_knots 0 min_temp max_temp iterations warp_iterations
        fitTemplate idraws st2).losses ∧
    (continue_fit_run km n_knots 0 min_temp max_temp iterations warp_iterations
        fitTemplate idraws st1).template
      = (continue_fit_run km n_knots 0 min_temp max_temp iterations warp_iterations
        fitTemplate idraws st2).template ∧
    (continue_fit_run km n_knots 0 min_temp max_temp iterations warp_iterations
        fitTemplate idraws st1).loss_hist
      = (continue_fit_run km n_knots 0 min_temp max_temp iterations warp_iterations
        fitTemplate idraws st2).loss_hist := by
  have hagree :
      Agree
        (continue_fit_run km n_knots 0 min_temp max_temp iterations warp_iterations
          fitTemplate idraws st1)
        (continue_fit_run km n_knots 0 min_temp max_temp iterations warp_iterations
          fitTemplate idraws st2) := by
    unfold continue_fit_run
    exact foldl_rel Agree _
      (fun s t i h' =>
        agree_continueFitStep km n_knots min_temp max_temp warp_iterations
          fitTemplate (idraws i) s t h')
      _ st1 st2 ⟨hK, hx, hy, hl, ht, hh⟩
  exact ⟨hagree.2.1, hagree.2.2.1, hagree.2.2.2.1, hagree.2.2.2.2.1, hagree.2.2.2.2.2⟩

/-- C10, witness for `c10_penalty_noninterference`: `stSample` and
`stSample2` differ exactly in the penalty array and the two scratch
buffers; one alternation round with trivial kernels yields identical
observable state. -/
theorem c10_penalty_noninterference_witness :
    (continue_fit_run kernelsSample 0 0 (-2) 0 1 1 true drawsSample stSample).losses
      = (continue_fit_run kernelsSample 0 0 (-2) 0 1 1 true drawsSample stSample2).losses ∧
    (continue_fit_run kernelsSample 0 0 (-2) 0 1 1 true drawsSample stSample).loss_hist
      = (continue_fit_run kernelsSample 0 0 (-2) 0 1 1 true drawsSample stSample2).loss_hist := by
  have h := c10_penalty_noninterference kernelsSample 0 (-2) 0 1 1 true drawsSample
    stSample stSample2 rfl rfl rfl rfl rfl rfl
  exact ⟨h.2.2.1, h.2.2.2.2⟩

/- C8: `fit` validation and initialization -/

/-- C8, confirmed.  `fit` raises (with the source's message) on any input
that is not exactly 3-dimensional numeric; otherwise it initializes the
reference time base to `T` evenly spaced values from 0 to 1, the template
to the across-trial mean (a `(T, N)` array, here a function of `(t, n)`),
`x_knots` and `y_knots` to the same array whose every row is the
`n_knots + 2` evenly spaced values `i / (n_knots + 1)` from 0 to 1 (the
identity warp, replicated over trials), the per-trial losses via one full
reconstruction pass (`quad_loss(self.predict(), data)`), zero penalties
and the loss history `[mean(losses)]` — and only then enters the
alternation loop (`fit` = initialization followed by `continue_fit`). -/
theorem c8_fit_initialization (km : Kernels) (n_knots : ℕ)
    (junkNL junkNP : ℕ → ℚ) (data : NDArray)
    (iterations warp_iterations : ℕ) (fitTemplate : Bool)
    (idraws : ℕ → ℕ → WarpDraw) (m : Model) :
    (¬ (data.ndim = 3 ∧ data.numeric = true) →
      fitInit km n_knots junkNL junkNP data = Except.error badDataMsg) ∧
    (data.ndim = 3 → data.numeric = true →
      ∃ st0, fitInit km n_knots junkNL junkNP data = Except.ok st0 ∧
        st0.K = data.K ∧
        st0.tref = linspace 0 1 data.T ∧
        st0.tref.length = data.T ∧
        (∀ i, i < data.T →
          st0.tref.get? i = some ((i : ℚ) / ((data.T : ℚ) - 1))) ∧
        (∀ t n, st0.template t n
          = (∑ k in Finset.range data.K, data.val k t n) / (data.K : ℚ)) ∧
        (∀ k, st0.xknots k = linspace 0 1 (n_knots + 2)) ∧
        st0.yknots = st0.xknots ∧
        (∀ k, (st0.xknots k).length = n_knots + 2) ∧
        (∀ k i, i < n_knots + 2 →
          (st0.xknots k).get? i = some ((i : ℚ) / ((n_knots : ℚ) + 1))) ∧
        st0.losses = km.quad0 st0.xknots st0.yknots st0.template ∧
        st0.penalties = (fun _ => 0) ∧
        st0.newLosses = junkNL ∧
        st0.newPenalties = junkNP ∧
        st0.loss_hist = [meanK data.K st0.losses]) ∧
    (∀ st0, fitInit km m.n_knots junkNL junkNP data = Except.ok st0 →
      model_fit km iterations warp_iterations fitTemplate junkNL junkNP idraws m data
        = model_continue_fit km data iterations warp_iterations fitTemplate idraws
            { m with state := some st0 }) := by
  refine ⟨?_, ?_, ?_⟩
  · intro h
    unfold fitInit
    rw [if_neg h]
  · intro h3 hnum
    unfold fitInit
    rw [if_pos ⟨h3, hnum⟩]
    refine ⟨_, rfl, rfl, rfl, ?_, ?_, ?_, ?_, rfl, ?_, ?_, rfl, rfl, rfl, rfl, rfl⟩
    · exact linspace_length 0 1 data.T
    · intro i hi
      rw [linspace_get? 0 1 data.T i hi]
      congr 1
      ring
    · intro t n
      rfl
    · intro k
      rfl
    · intro k
      exact linspace_length 0 1 (n_knots + 2)
    · intro k i hi
      show (linspace 0 1 (n_knots + 2)).get? i = _
      rw [linspace_get? 0 1 (n_knots + 2) i hi]
      congr 1
      push_cast
      ring
  · intro st0 hok
    unfold model_fit
    rw [hok]

/-- C8, witness for `c8_fit_initialization` on the concrete
`dataSample` (shape `[1, 2, 1]`, numeric): initialization succeeds and the
knot rows have the stated entries. -/
theorem c8_fit_initialization_witness :
    ∃ st0, fitInit kernelsSample 0 (fun _ => 0) (fun _ => 0) dataSample
        = Except.ok st0 ∧
      st0.K = dataSample.K ∧
      st0.tref = linspace 0 1 dataSample.T ∧
      st0.tref.length = dataSample.T ∧
      (∀ i, i < dataSample.T →
        st0.tref.get? i = some ((i : ℚ) / ((dataSample.T : ℚ) - 1))) ∧
      (∀ t n, st0.template t n
        = (∑ k in Finset.range dataSample.K, dataSample.val k t n) / (dataSample.K : ℚ)) ∧
      (∀ k, st0.xknots k = linspace 0 1 (0 + 2)) ∧
      st0.yknots = st0.xknots ∧
      (∀ k, (st0.xknots k).length = 0 + 2) ∧
      (∀ k i, i < 0 + 2 →
        (st0.xknots k).get? i = some ((i : ℚ) / ((0 : ℚ) + 1))) ∧
      st0.losses = kernelsSample.quad0 st0.xknots st0.yknots st0.template ∧
      st0.penalties = (fun _ => 0) ∧
      st0.newLosses = (fun _ => 0) ∧
      st0.newPenalties = (fun _ => 0) ∧
      st0.loss_hist = [meanK dataSample.K st0.losses] :=
  (c8_fit_initialization kernelsSample 0 (fun _ => 0) (fun _ => 0) dataSample
    1 1 true drawsSample modelSample0).2.1 rfl rfl

/- C6: `dump_params` -/

/-- C6, counterexample.  `fittedSample` is produced by an actual `fit`
call on a directly constructed instance (no subclass assigning extra
fields); its `q1` is still unassigned, so `dump_params` raises
`AttributeError` for `q1` instead of returning the snapshot mapping. -/
theorem c6_dump_params_counterexample :
    model_fit kernelsSample 0 0 true (fun _ => 0) (fun _ => 0) drawsSample
        modelSample0 dataSample = Except.ok fittedSample ∧
    fittedSample.q1 = none ∧
    dump_params fittedSample = Except.error attrQ1Msg :=
  ⟨rfl, rfl, rfl⟩

/-- C6, amended.  On a fitted instance, `dump_params` raises
`AttributeError` for `q1` (the source reads `self.q1` and `self.q2`,
which are never assigned anywhere in this class) unless a subclass has
supplied `q1` and `q2`; when both are supplied it returns the snapshot
mapping of template, knot set, loss history, `l2_smoothness`, `q1` and
`q2`. -/
theorem c6_dump_params (m : Model) (st : WState) (hst : m.state = some st) :
    (m.q1 = none → dump_params m = Except.error attrQ1Msg) ∧
    (∀ a, m.q1 = some a → m.q2 = none → dump_params m = Except.error attrQ2Msg) ∧
    (∀ a b, m.q1 = some a → m.q2 = some b →
      dump_params m = Except.ok
        { template := st.template
          x_knots := st.xknots
          y_knots := st.yknots
          loss_hist := st.loss_hist
          l2_smoothness := m.l2_smoothness
          q1 := a
          q2 := b }) := by
  refine ⟨?_, ?_, ?_⟩
  · intro h1
    unfold dump_params
    rw [hst, h1]
  · intro a h1 h2
    unfold dump_params
    rw [hst, h1, h2]
  · intro a b h1 h2
    unfold dump_params
    rw [hst, h1, h2]

/-- C6, witness for `c6_dump_params` on `modelFittedLit`, whose `q1` and
`q2` are supplied: the snapshot is returned. -/
theorem c6_dump_params_witness :
    dump_params modelFittedLit = Except.ok
      { template := stSample.template
        x_knots := stSample.xknots
        y_knots := stSample.yknots
        loss_hist := stSample.loss_hist
        l2_smoothness := modelFittedLit.l2_smoothness
        q1 := 1
        q2 := 2 } :=
  (c6_dump_params modelFittedLit stSample rfl).2.2 1 2 rfl rfl

/- C7: uninitialized-model guards -/

/-- C7, confirmed.  On any instance on which `fit` has not succeeded
(`template` and the knot arrays still `None`), each of `continue_fit`,
`predict`, `argsort_warps` and `transform` raises the error message
instructing the caller to call `AffineWarping.fit(...)` first.  The
check is the first statement of each method, before any validation or
computation (the theorem holds for arbitrary `t` and arbitrary input
array, and an error result carries no state, so nothing is mutated). -/
theorem c7_uninitialized_errors (km : Kernels) (data X : NDArray)
    (iterations warp_iterations : ℕ) (fitTemplate : Bool)
    (idraws : ℕ → ℕ → WarpDraw) (t : ℚ) (m : Model)
    (h1 : m.template = none) (h2 : m.x_knots = none) :
    model_continue_fit km data iterations warp_iterations fitTemplate idraws m
        = Except.error (notInitMsg "continue_fit") ∧
    model_predict km m = Except.error (notInitMsg "predict") ∧
    model_argsort_warps km m t = Except.error (notInitMsg "argsort_warps") ∧
    model_transform km m X = Except.error (notInitMsg "transform") := by
  have hs : m.state = none := by
    unfold Model.template at h1
    exact Option.map_eq_none'.mp h1
  unfold model_continue_fit model_predict model_argsort_warps model_transform
  rw [hs]
  exact ⟨rfl, rfl, rfl, rfl⟩

/-- C7, witness for `c7_uninitialized_errors` on the directly constructed
`modelSample0`, with `t = 2` (outside `[0,1]`): the fit-first error is
raised, not the range error. -/
theorem c7_uninitialized_errors_witness :
    model_predict kernelsSample modelSample0
        = Except.error (notInitMsg "predict") ∧
    model_argsort_warps kernelsSample modelSample0 2
        = Except.error (notInitMsg "argsort_warps") := by
  have h := c7_uninitialized_errors kernelsSample dataSample dataSample 1 1 true
    drawsSample 2 modelSample0 rfl rfl
  exact ⟨h.2.1, h.2.2.1⟩

end AffineWarp
